import Mathlib

/-!
Shallow embedding of `main_picking_primers.py` (PCR primer design checks).

Python strings are modelled as `List Char`; Python runtime errors
(ZeroDivisionError, KeyError, AttributeError, IndexError) are modelled with
an `Except PyError` monad; Python floats are modelled exactly as rationals;
Python ints as `Int`.
-/

/-- The Python runtime errors that the source code can raise. -/
inductive PyError where
  | zeroDivisionError : PyError
  | keyError : Char → PyError
  | attributeError : List Char → PyError
  | indexError : PyError
deriving DecidableEq, Repr

deriving instance DecidableEq for Except

/-- The dict `{'A': 'T', 'T': 'A', 'C': 'G', 'G': 'C'}`; `none` models the
KeyError raised by `dict[key]` on a missing key. -/
def complement_dict (c : Char) : Option Char :=
  if c = 'A' then some 'T'
  else if c = 'T' then some 'A'
  else if c = 'C' then some 'G'
  else if c = 'G' then some 'C'
  else none

/-- A character is one of the four DNA bases A, T, C, G. -/
def isACGT (c : Char) : Bool :=
  c == 'A' || c == 'T' || c == 'C' || c == 'G'

/-- Python slice `s[i:j]` for nonnegative `i ≤ j`. -/
def pySlice (s : List Char) (i j : Nat) : List Char :=
  (s.drop i).take (j - i)

/-- Python slice `s[-n:]` for `n > 0` (the last `n` characters, or the whole
string when it is shorter than `n`). -/
def pySliceLast (n : Nat) (s : List Char) : List Char :=
  s.drop (s.length - n)

/-- Python `list.insert(i, x)` for a nonnegative index (clamped to the tail). -/
def pyInsert (l : List (List Char)) (i : Nat) (x : List Char) : List (List Char) :=
  l.take i ++ x :: l.drop i

/-- Python `s[-1]`: IndexError on the empty string. -/
def pyLast (s : List Char) : Except PyError Char :=
  match s.getLast? with
  | none => throw PyError.indexError
  | some c => pure c

/-- The list comprehension `[complement_dict[i] for i in s]`: complements the
string symbol-by-symbol, raising KeyError at the first symbol outside
{A,T,C,G}. -/
def mapComp : List Char → Except PyError (List Char)
  | [] => pure []
  | c :: cs =>
    match complement_dict c with
    | none => throw (PyError.keyError c)
    | some b => do
      let bs ← mapComp cs
      pure (b :: bs)

/-- `gc_content`: `100 * sum(1 for nuc in self.seq if nuc in 'GC') / self.len`.
Raises ZeroDivisionError when the length is zero. -/
def gc_content (seq : List Char) : Except PyError ℚ :=
  if seq.length = 0 then throw PyError.zeroDivisionError
  else pure (100 * (seq.countP (fun nuc => nuc == 'G' || nuc == 'C') : ℚ) / (seq.length : ℚ))

/-- `min_large_17`: `self.len >= 17`. -/
def min_large_17 (len : Nat) : Bool :=
  decide (len ≥ 17)

/-- `primer_tm`: `4 * (seq.count('C') + seq.count('G')) + 2 * (seq.count('A') + seq.count('T'))`. -/
def primer_tm (seq : List Char) : ℤ :=
  4 * ((seq.count 'C' : ℤ) + (seq.count 'G' : ℤ)) + 2 * ((seq.count 'A' : ℤ) + (seq.count 'T' : ℤ))

/-- `primer_comp`: `''.join([complement_dict[i] for i in self.seq])[::-1]`,
the symbol-wise complement followed by a reversal. -/
def primer_comp (seq : List Char) : Except PyError (List Char) := do
  let l ← mapComp seq
  pure l.reverse

/-- The `Primer` object: the fields computed eagerly by `__init__`. -/
structure Primer where
  seq : List Char
  len : Nat
  gc : ℚ
  tm : ℤ
  min17 : Bool
  «end» : Char
  comp : List Char
deriving DecidableEq, Repr

/-- `Primer.__init__(dna_string)`: computes every derived field eagerly, in
source order (`gc` before `end` before `comp`), so the first failing
computation determines the error. -/
def Primer.init (dna_string : List Char) : Except PyError Primer := do
  let seq := dna_string
  let len := dna_string.length
  let gc ← gc_content seq
  let tm := primer_tm seq
  let min17 := min_large_17 len
  let e ← pyLast dna_string
  let comp ← primer_comp seq
  pure { seq := seq, len := len, gc := gc, tm := tm, min17 := min17, «end» := e, comp := comp }

/-- One iteration of the second loop of `no_hairpin`:
`list_2.insert(i, ''.join([complement_dict[nuc] for nuc in list_2[i]]))`.
`list_2[i]` is read from the current (already grown) list before inserting. -/
def hairpinStep (l : List (List Char)) (i : Nat) : Except PyError (List (List Char)) :=
  match l[i]? with
  | none => throw PyError.indexError
  | some w =>
    match mapComp w with
    | Except.error e => Except.error e
    | Except.ok c => Except.ok (pyInsert l i c)

/-- `no_hairpin`: appends every window `seq[i:i+4]` for `i in range(len - 3)`
to both lists, then runs the insert loop `for i in range(len(list_2))` (the
range bound is evaluated once, before any insert), and returns both lists. -/
def Primer.no_hairpin (p : Primer) : Except PyError (List (List Char) × List (List Char)) := do
  let list_of_hairpin_trials_1 := (List.range (p.len - 3)).map (fun i => pySlice p.seq i (i + 4))
  let list_of_hairpin_trials_2 := (List.range (p.len - 3)).map (fun i => pySlice p.seq i (i + 4))
  let final_2 ← (List.range list_of_hairpin_trials_2.length).foldlM hairpinStep list_of_hairpin_trials_2
  pure (list_of_hairpin_trials_1, final_2)

/-- The attribute access `primer_2.seq.comp` in `no_primer_dimer`:
`primer_2.seq` is a plain Python `str`, which has no attribute `comp`, so
this access always raises `AttributeError: 'str' object has no attribute 'comp'`. -/
def strAttrComp (_s : List Char) : Except PyError (List Char) :=
  throw (PyError.attributeError ['c', 'o', 'm', 'p'])

/-- `no_primer_dimer(primer_1, primer_2)`: takes `primer_1.seq[-4:]` and
`primer_2.seq.comp[-4:]` (an attribute access on a `str`), counts positional
matches over `zip`, and returns `number_of_comp <= 2`. -/
def Primer.no_primer_dimer (primer_1 primer_2 : Primer) : Except PyError Bool := do
  let last_nuc1 := pySliceLast 4 primer_1.seq
  let comp2 ← strAttrComp primer_2.seq
  let last_nuc2 := pySliceLast 4 comp2
  let number_of_comp := (last_nuc1.zip last_nuc2).countP (fun nucs => nucs.1 == nucs.2)
  pure (decide (number_of_comp ≤ 2))

/-- `gc_content_test(primer_1, primer_2)`: `primer_1.gc >= 50 and primer_2.gc >= 50`. -/
def Primer.gc_content_test (primer_1 primer_2 : Primer) : Bool :=
  decide (primer_1.gc ≥ 50) && decide (primer_2.gc ≥ 50)

/-- `anneling_temperature_check(primer_1, primer_2)`: `abs(primer_1.tm - primer_2.tm) <= 5`. -/
def Primer.anneling_temperature_check (primer_1 primer_2 : Primer) : Bool :=
  decide (|primer_1.tm - primer_2.tm| ≤ 5)

/-- `is_end_g_or_c(primer_1, primer_2)`: `primer_1.end in ('G', 'C') and primer_2.end in ('G', 'C')`. -/
def Primer.is_end_g_or_c (primer_1 primer_2 : Primer) : Bool :=
  (primer_1.«end» == 'G' || primer_1.«end» == 'C') && (primer_2.«end» == 'G' || primer_2.«end» == 'C')

/-- The sequence of the spec's end-to-end example, `"GCGCATATGCGCATG"`. -/
def seqC3 : List Char :=
  ['G', 'C', 'G', 'C', 'A', 'T', 'A', 'T', 'G', 'C', 'G', 'C', 'A', 'T', 'G']

/-- A Primer record with a prescribed `tm` field, for exercising the
annealing check at the spec's example temperatures 55, 60 and 61. -/
def pTm (t : ℤ) : Primer :=
  { seq := [], len := 0, gc := 0, tm := t, min17 := false, «end» := 'A', comp := [] }

/-- Total version of the base-complement map, for stating what `mapComp`
returns on valid input (acts as the identity outside {A,T,C,G}). -/
def fComp (c : Char) : Char :=
  if c = 'A' then 'T'
  else if c = 'T' then 'A'
  else if c = 'C' then 'G'
  else if c = 'G' then 'C'
  else c

lemma isACGT_cases {c : Char} (h : isACGT c = true) :
    c = 'A' ∨ c = 'T' ∨ c = 'C' ∨ c = 'G' := by
  simpa [isACGT, or_assoc] using h

lemma complement_dict_valid {c : Char} (h : isACGT c = true) :
    complement_dict c = some (fComp c) := by
  rcases isACGT_cases h with h | h | h | h <;> subst h <;> rfl

lemma complement_dict_invalid {c : Char} (h : isACGT c = false) :
    complement_dict c = none := by
  have h4 : ¬(c = 'A' ∨ c = 'T' ∨ c = 'C' ∨ c = 'G') := by
    intro hc
    have : isACGT c = true := by
      rcases hc with h | h | h | h <;> subst h <;> rfl
    simp [this] at h
  push_neg at h4
  simp [complement_dict, h4.1, h4.2.1, h4.2.2.1, h4.2.2.2]

lemma fComp_isACGT {c : Char} (h : isACGT c = true) : isACGT (fComp c) = true := by
  rcases isACGT_cases h with h | h | h | h <;> subst h <;> rfl

lemma fComp_fComp {c : Char} (h : isACGT c = true) : fComp (fComp c) = c := by
  rcases isACGT_cases h with h | h | h | h <;> subst h <;> rfl

lemma mapComp_ok {s : List Char} (h : ∀ c ∈ s, isACGT c = true) :
    mapComp s = Except.ok (s.map fComp) := by
  induction s with
  | nil => rfl
  | cons c cs ih =>
    have hc : isACGT c = true := h c (List.mem_cons_self c cs)
    have hcs : ∀ x ∈ cs, isACGT x = true := fun x hx => h x (List.mem_cons_of_mem c hx)
    simp only [mapComp, complement_dict_valid hc, ih hcs, List.map_cons]
    rfl

lemma mapComp_error {s : List Char} (h : ∃ c ∈ s, isACGT c = false) :
    ∃ c, isACGT c = false ∧ mapComp s = Except.error (PyError.keyError c) := by
  induction s with
  | nil => simp at h
  | cons c cs ih =>
    by_cases hc : isACGT c = true
    · have hcs : ∃ x ∈ cs, isACGT x = false := by
        rcases h with ⟨x, hx, hxf⟩
        rcases List.mem_cons.mp hx with rfl | hx
        · rw [hc] at hxf; cases hxf
        · exact ⟨x, hx, hxf⟩
      rcases ih hcs with ⟨x, hxf, hmap⟩
      refine ⟨x, hxf, ?_⟩
      simp only [mapComp, complement_dict_valid hc, hmap]
      rfl
    · have hcf : isACGT c = false := by
        cases hb : isACGT c
        · rfl
        · exact absurd hb hc
      refine ⟨c, hcf, ?_⟩
      simp only [mapComp, complement_dict_invalid hcf]
      rfl

lemma primer_comp_ok {s : List Char} (h : ∀ c ∈ s, isACGT c = true) :
    primer_comp s = Except.ok (s.map fComp).reverse := by
  simp only [primer_comp, mapComp_ok h]
  rfl

lemma pyLast_ok {s : List Char} (h : s ≠ []) :
    pyLast s = Except.ok (s.getLast h) := by
  simp only [pyLast, List.getLast?_eq_getLast s h]
  rfl

lemma gc_content_ok {s : List Char} (h : s ≠ []) :
    gc_content s =
      Except.ok (100 * (s.countP (fun nuc => nuc == 'G' || nuc == 'C') : ℚ) / (s.length : ℚ)) := by
  have hlen : s.length ≠ 0 := by simpa using h
  simp only [gc_content, if_neg hlen]
  rfl

/-- Characterization of a successful construction: for a non-empty sequence
over {A,T,C,G}, `Primer.__init__` succeeds and every field has its
source-formula value. -/
theorem Primer.init_ok {s : List Char} (h1 : s ≠ []) (h2 : ∀ c ∈ s, isACGT c = true) :
    Primer.init s = Except.ok
      { seq := s
        len := s.length
        gc := 100 * (s.countP (fun nuc => nuc == 'G' || nuc == 'C') : ℚ) / (s.length : ℚ)
        tm := primer_tm s
        min17 := min_large_17 s.length
        «end» := s.getLast h1
        comp := (s.map fComp).reverse } := by
  simp only [Primer.init, gc_content_ok h1, pyLast_ok h1, primer_comp_ok h2]
  rfl

lemma primer_comp_error {s : List Char} {e : PyError} (h : mapComp s = Except.error e) :
    primer_comp s = Except.error e := by
  simp only [primer_comp, h]
  rfl

lemma map_fComp_fComp {s : List Char} (h : ∀ c ∈ s, isACGT c = true) :
    (s.map fComp).map fComp = s := by
  induction s with
  | nil => rfl
  | cons c cs ih =>
    simp [fComp_fComp (h c (List.mem_cons_self c cs)),
      ih (fun x hx => h x (List.mem_cons_of_mem c hx))]

/-- C4: constructing a Primer from the empty sequence fails during
`__init__` (the division by `self.len` in `gc_content` raises
ZeroDivisionError), so no Primer object — in particular none with a
NaN or infinite `gc` — is ever produced from the empty sequence. -/
theorem C4_empty_sequence_rejected :
    Primer.init [] = Except.error PyError.zeroDivisionError := rfl

/-- C1 (code bug): `no_primer_dimer` never returns a boolean.  Its line
`last_nuc1, last_nuc2 = primer_1.seq[-4:], primer_2.seq.comp[-4:]` reads the
attribute `comp` of the plain string `primer_2.seq`, which raises
AttributeError on every call — shown here both on the concrete valid pair
built from "ATCG" and "GGGG" and on every pair of Primers whatsoever. -/
theorem C1_no_primer_dimer_always_raises :
    (∃ p1 p2, Primer.init ['A', 'T', 'C', 'G'] = Except.ok p1 ∧
      Primer.init ['G', 'G', 'G', 'G'] = Except.ok p2 ∧
      Primer.no_primer_dimer p1 p2 = Except.error (PyError.attributeError ['c', 'o', 'm', 'p'])) ∧
    ∀ q1 q2 : Primer,
      Primer.no_primer_dimer q1 q2 = Except.error (PyError.attributeError ['c', 'o', 'm', 'p']) := by
  constructor
  · exact ⟨_, _, Primer.init_ok (by decide) (by decide),
      Primer.init_ok (by decide) (by decide), rfl⟩
  · intro q1 q2
    rfl

/-- C2 (code bug): on the primer built from "ATCGA" (length 5), `no_hairpin`
returns a first list with the expected `5 - 3 = 2` windows, but the second
list has `2 * (5 - 3) = 4` entries: the insert loop prepends one copy of the
complement of the FIRST window per iteration (reading the shifted list), so
the result is `[comp w0, comp w0, w0, w1]` instead of `[comp w0, comp w1]`. -/
theorem C2_no_hairpin_insert_bug :
    ∃ p, Primer.init ['A', 'T', 'C', 'G', 'A'] = Except.ok p ∧
      Primer.no_hairpin p = Except.ok
        ([['A', 'T', 'C', 'G'], ['T', 'C', 'G', 'A']],
         [['T', 'A', 'G', 'C'], ['T', 'A', 'G', 'C'], ['A', 'T', 'C', 'G'], ['T', 'C', 'G', 'A']]) := by
  exact ⟨_, Primer.init_ok (by decide) (by decide), by decide⟩

/-- C5: the reverse-complement `primer_comp` is an involution on sequences
over {A,T,C,G}: it succeeds, and applying it to the result gives the
original sequence back. -/
theorem C5_reverse_complement_involution (s : List Char) (h : ∀ c ∈ s, isACGT c = true) :
    ∃ t, primer_comp s = Except.ok t ∧ primer_comp t = Except.ok s := by
  refine ⟨(s.map fComp).reverse, primer_comp_ok h, ?_⟩
  have hvalid : ∀ c ∈ (s.map fComp).reverse, isACGT c = true := by
    intro c hc
    rw [List.mem_reverse] at hc
    rcases List.mem_map.mp hc with ⟨x, hx, rfl⟩
    exact fComp_isACGT (h x hx)
  rw [primer_comp_ok hvalid, List.map_reverse, List.reverse_reverse, map_fComp_fComp h]

/-- Witness for C5 at the concrete sequence "ATCG". -/
theorem C5_reverse_complement_involution_witness :
    (∀ c ∈ (['A', 'T', 'C', 'G'] : List Char), isACGT c = true) ∧
    ∃ t, primer_comp ['A', 'T', 'C', 'G'] = Except.ok t ∧
      primer_comp t = Except.ok ['A', 'T', 'C', 'G'] :=
  ⟨by decide, C5_reverse_complement_involution ['A', 'T', 'C', 'G'] (by decide)⟩

/-- C10: the three pairwise predicates `gc_content_test`,
`anneling_temperature_check` and `is_end_g_or_c` are symmetric in their two
Primer arguments. -/
theorem C10_pairwise_checks_symmetric (p1 p2 : Primer) :
    Primer.gc_content_test p1 p2 = Primer.gc_content_test p2 p1 ∧
    Primer.anneling_temperature_check p1 p2 = Primer.anneling_temperature_check p2 p1 ∧
    Primer.is_end_g_or_c p1 p2 = Primer.is_end_g_or_c p2 p1 := by
  refine ⟨Bool.and_comm _ _, ?_, Bool.and_comm _ _⟩
  simp only [Primer.anneling_temperature_check, abs_sub_comm]

lemma countP_GC (s : List Char) :
    s.countP (fun nuc => nuc == 'G' || nuc == 'C') = s.count 'G' + s.count 'C' := by
  induction s with
  | nil => rfl
  | cons c cs ih =>
    simp only [List.countP_cons, List.count_cons, ih]
    by_cases hG : c = 'G'
    · subst hG
      simp
      omega
    · by_cases hC : c = 'C'
      · subst hC
        simp
        omega
      · simp [hG, hC, Ne.symm hG, Ne.symm hC]

/-- C3 counterexample: on the end-to-end example sequence "GCGCATATGCGCATG"
(9 G/C symbols and 6 A/T symbols, not 10 and 5), the constructed Primer does
NOT have `gc = 100*10/15` and `tm = 50` as the claim states. -/
theorem C3_example_counterexample :
    (Primer.init seqC3).map (fun p => (p.min17, p.gc, p.tm, p.«end»)) ≠
      Except.ok (false, 100 * 10 / 15, 50, 'G') := by
  rw [Primer.init_ok (s := seqC3) (by decide) (by decide)]
  have hcount : seqC3.countP (fun nuc => nuc == 'G' || nuc == 'C') = 9 := by decide
  have hlen : seqC3.length = 15 := by decide
  simp only [Except.map, hcount, hlen, Except.ok.injEq, Prod.mk.injEq, ne_eq]
  intro h
  have hgc := h.2.1
  norm_num at hgc

/-- C3 (amended): on "GCGCATATGCGCATG" the constructed Primer has
`min17 = false`, `gc = 100*9/15 = 60`, `tm = 4*9 + 2*6 = 48`, and terminal
base 'G'. -/
theorem C3_example_amended :
    (Primer.init seqC3).map (fun p => (p.min17, p.gc, p.tm, p.«end»)) =
      Except.ok (false, 60, 48, 'G') := by
  rw [Primer.init_ok (s := seqC3) (by decide) (by decide)]
  have hcount : seqC3.countP (fun nuc => nuc == 'G' || nuc == 'C') = 9 := by decide
  have hlen : seqC3.length = 15 := by decide
  simp only [Except.map, hcount, hlen, Except.ok.injEq, Prod.mk.injEq]
  refine ⟨by decide, by norm_num, by decide, by decide⟩

/-- C6: for a non-empty sequence over {A,T,C,G}, construction succeeds and
the `gc` field equals `100 * (count G + count C) / length` and lies in
[0, 100]. -/
theorem C6_gc_content_formula_and_bounds (s : List Char) (h1 : s ≠ [])
    (h2 : ∀ c ∈ s, isACGT c = true) :
    ∃ p, Primer.init s = Except.ok p ∧
      p.gc = 100 * ((s.count 'G' : ℚ) + (s.count 'C' : ℚ)) / (s.length : ℚ) ∧
      0 ≤ p.gc ∧ p.gc ≤ 100 := by
  refine ⟨_, Primer.init_ok h1 h2, ?_, ?_, ?_⟩
  · show (100 : ℚ) * (s.countP (fun nuc => nuc == 'G' || nuc == 'C') : ℚ) / (s.length : ℚ) = _
    rw [countP_GC]
    push_cast
    ring
  · show (0 : ℚ) ≤ 100 * (s.countP (fun nuc => nuc == 'G' || nuc == 'C') : ℚ) / (s.length : ℚ)
    positivity
  · show (100 : ℚ) * (s.countP (fun nuc => nuc == 'G' || nuc == 'C') : ℚ) / (s.length : ℚ) ≤ 100
    have hlen : (0 : ℚ) < (s.length : ℚ) := by
      have hpos : 0 < s.length := List.length_pos.mpr h1
      exact_mod_cast hpos
    rw [div_le_iff₀ hlen]
    have hle : s.countP (fun nuc => nuc == 'G' || nuc == 'C') ≤ s.length :=
      List.countP_le_length _
    have hq : (s.countP (fun nuc => nuc == 'G' || nuc == 'C') : ℚ) ≤ (s.length : ℚ) := by
      exact_mod_cast hle
    nlinarith

/-- Witness for C6 at the concrete sequence "GA". -/
theorem C6_gc_content_formula_and_bounds_witness :
    (['G', 'A'] : List Char) ≠ [] ∧ (∀ c ∈ (['G', 'A'] : List Char), isACGT c = true) ∧
    ∃ p, Primer.init ['G', 'A'] = Except.ok p ∧
      p.gc = 100 * (((['G', 'A'] : List Char).count 'G' : ℚ) +
        ((['G', 'A'] : List Char).count 'C' : ℚ)) / ((['G', 'A'] : List Char).length : ℚ) ∧
      0 ≤ p.gc ∧ p.gc ≤ 100 :=
  ⟨by decide, by decide, C6_gc_content_formula_and_bounds ['G', 'A'] (by decide) (by decide)⟩

/-- C7: for every sequence over {A,T,C,G} from which a Primer is actually
constructed, the `tm` field is the exact integer
`4*(count G + count C) + 2*(count A + count T)`. -/
theorem C7_melting_temperature_formula (s : List Char) (h1 : s ≠ [])
    (h2 : ∀ c ∈ s, isACGT c = true) :
    (Primer.init s).map Primer.tm =
      Except.ok (4 * ((s.count 'G' : ℤ) + (s.count 'C' : ℤ)) +
        2 * ((s.count 'A' : ℤ) + (s.count 'T' : ℤ))) := by
  rw [Primer.init_ok h1 h2]
  simp only [Except.map, Except.ok.injEq]
  show primer_tm s = _
  unfold primer_tm
  ring

/-- Witness for C7 at the concrete sequence "AG". -/
theorem C7_melting_temperature_formula_witness :
    (['A', 'G'] : List Char) ≠ [] ∧ (∀ c ∈ (['A', 'G'] : List Char), isACGT c = true) ∧
    (Primer.init ['A', 'G']).map Primer.tm =
      Except.ok (4 * (((['A', 'G'] : List Char).count 'G' : ℤ) +
          ((['A', 'G'] : List Char).count 'C' : ℤ)) +
        2 * (((['A', 'G'] : List Char).count 'A' : ℤ) +
          ((['A', 'G'] : List Char).count 'T' : ℤ))) :=
  ⟨by decide, by decide, C7_melting_temperature_formula ['A', 'G'] (by decide) (by decide)⟩

/-- C8: `anneling_temperature_check` returns true iff `|tm1 - tm2| ≤ 5`;
in particular it is true at difference exactly 5 (Tm 55 vs 60) and false at
difference 6 (Tm 55 vs 61). -/
theorem C8_anneling_temperature_check_iff :
    (∀ p1 p2 : Primer,
      Primer.anneling_temperature_check p1 p2 = true ↔ |p1.tm - p2.tm| ≤ 5) ∧
    Primer.anneling_temperature_check (pTm 55) (pTm 60) = true ∧
    Primer.anneling_temperature_check (pTm 55) (pTm 61) = false := by
  refine ⟨fun p1 p2 => ?_, ?_, ?_⟩
  · simp [Primer.anneling_temperature_check]
  · decide
  · decide

/-- C9: a non-empty sequence containing a symbol outside {A,T,C,G} is
rejected during `__init__` itself with a KeyError (a lookup error), because
`self.comp = self.primer_comp()` is computed eagerly at construction. -/
theorem C9_invalid_symbol_rejected_at_init (s : List Char) (h1 : s ≠ [])
    (h2 : ∃ c ∈ s, isACGT c = false) :
    ∃ c, isACGT c = false ∧ Primer.init s = Except.error (PyError.keyError c) := by
  rcases mapComp_error h2 with ⟨c, hcf, hmap⟩
  refine ⟨c, hcf, ?_⟩
  simp only [Primer.init, gc_content_ok h1, pyLast_ok h1, primer_comp_error hmap]
  rfl

lemma hairpinStep_at (k : Nat) (c0 w0 : List Char) (rest : List (List Char))
    (hc0 : mapComp w0 = Except.ok c0) :
    hairpinStep (List.replicate k c0 ++ w0 :: rest) k =
      Except.ok (List.replicate (k + 1) c0 ++ w0 :: rest) := by
  have hget : (List.replicate k c0 ++ w0 :: rest)[k]? = some w0 := by
    rw [List.getElem?_append_right (by simp)]
    simp
  have htake : (List.replicate k c0 ++ w0 :: rest).take k = List.replicate k c0 := by
    simp
  have hdrop : (List.replicate k c0 ++ w0 :: rest).drop k = w0 :: rest := by
    simp
  simp only [hairpinStep, hget, hc0, pyInsert, htake, hdrop, Except.ok.injEq]
  rw [List.replicate_succ']
  simp

/-- The second loop of `no_hairpin`, run from iteration `k` with `j`
iterations left on a list of `k` inserted complements followed by the
original windows: every remaining iteration reads the FIRST original window
`w0` (index `k` lands on it after `k` inserts) and prepends one more copy of
its complement. -/
lemma hairpin_loop (c0 w0 : List Char) (rest : List (List Char))
    (hc0 : mapComp w0 = Except.ok c0) :
    ∀ j k : Nat,
      (List.range' k j).foldlM hairpinStep (List.replicate k c0 ++ w0 :: rest) =
        Except.ok (List.replicate (k + j) c0 ++ w0 :: rest) := by
  intro j
  induction j with
  | zero =>
    intro k
    rw [Nat.add_zero]
    rfl
  | succ j ih =>
    intro k
    rw [show List.range' k (j + 1) = k :: List.range' (k + 1) j from List.range'_succ k j 1,
      List.foldlM_cons, hairpinStep_at k c0 w0 rest hc0,
      show k + (j + 1) = (k + 1) + j from by omega]
    exact ih (k + 1)

/-- What `no_hairpin` actually returns on any Primer whose `len` field is at
least 4 and whose sequence is over {A,T,C,G}: the first list is the expected
`len - 3` raw windows; the second is `len - 3` copies of the complement of
the FIRST window followed by the `len - 3` raw windows (so `2*(len - 3)`
entries, not `len - 3`). -/
theorem no_hairpin_actual (p : Primer) (h4 : 4 ≤ p.len)
    (hv : ∀ c ∈ p.seq, isACGT c = true) :
    Primer.no_hairpin p = Except.ok
      ((List.range (p.len - 3)).map (fun i => pySlice p.seq i (i + 4)),
       List.replicate (p.len - 3) ((pySlice p.seq 0 (0 + 4)).map fComp) ++
         (List.range (p.len - 3)).map (fun i => pySlice p.seq i (i + 4))) := by
  obtain ⟨m, hm⟩ : ∃ m, p.len - 3 = m + 1 := ⟨p.len - 4, by omega⟩
  have hw0v : ∀ c ∈ pySlice p.seq 0 (0 + 4), isACGT c = true := by
    intro c hc
    simp only [pySlice, List.drop_zero] at hc
    exact hv c (List.take_subset _ _ hc)
  have hc0 : mapComp (pySlice p.seq 0 (0 + 4)) =
      Except.ok ((pySlice p.seq 0 (0 + 4)).map fComp) := mapComp_ok hw0v
  have hwin : (List.range (p.len - 3)).map (fun i => pySlice p.seq i (i + 4)) =
      pySlice p.seq 0 (0 + 4) ::
        (List.range' 1 m).map (fun i => pySlice p.seq i (i + 4)) := by
    rw [hm, List.range_eq_range', List.range'_succ 0 m 1, List.map_cons]
  have hloop := hairpin_loop ((pySlice p.seq 0 (0 + 4)).map fComp)
    (pySlice p.seq 0 (0 + 4)) ((List.range' 1 m).map (fun i => pySlice p.seq i (i + 4)))
    hc0 (m + 1) 0
  simp only [List.replicate_zero, List.nil_append, Nat.zero_add] at hloop
  rw [hm] at hwin
  simp only [Primer.no_hairpin, List.length_map, List.length_range, hm, hwin,
    List.length_cons, List.length_range']
  rw [List.range_eq_range', hloop]
  rfl

/-- Witness for C9 at the concrete sequence "AXG". -/
theorem C9_invalid_symbol_rejected_at_init_witness :
    (['A', 'X', 'G'] : List Char) ≠ [] ∧
    (∃ c ∈ (['A', 'X', 'G'] : List Char), isACGT c = false) ∧
    ∃ c, isACGT c = false ∧
      Primer.init ['A', 'X', 'G'] = Except.error (PyError.keyError c) :=
  ⟨by decide, by decide, C9_invalid_symbol_rejected_at_init ['A', 'X', 'G'] (by decide) (by decide)⟩
